import Mathlib

/-!
Verification development for the `mistertrade` repository.

The Python sources are shallowly embedded: pure computations become Lean
functions over `ℚ` and `String`/`List Char`, fallible code returns
`Except PyErr _`, and the one piece of per-instance state (the
minimum-trade-size memo) is modelled by explicit state passing.  Python
name-resolution failures (a referenced global that no import or local
binding supplies) are modelled explicitly: the embedding carries the list
of names actually bound in the relevant module, and reaching an unbound
name produces `PyErr.nameError`.
-/

/-- Python exception values raised by the embedded code.  Message strings
are abbreviated; only the exception class and the carried data matter for
the claims. -/
inductive PyErr where
  | valueError : PyErr
  | keyError : String → PyErr
  | nameError : String → PyErr
  | indexError : PyErr
  | typeError : PyErr
  | notImplementedError : PyErr
  | minimumTradeSizeError (market_coin : String) (quantity minimum_trade_size : ℚ) : PyErr
  | attributeError : PyErr
  | zeroDivisionError : PyErr
  deriving DecidableEq, Repr

/-- Decidable equality for `Except` results, so concrete evaluations can
be checked by `decide`. -/
instance {ε α : Type} [DecidableEq ε] [DecidableEq α] :
    DecidableEq (Except ε α) := fun a b =>
  match a, b with
  | .error e, .error f =>
      if h : e = f then .isTrue (by rw [h]) else
        .isFalse (fun hh => h (Except.error.inj hh))
  | .ok x, .ok y =>
      if h : x = y then .isTrue (by rw [h]) else
        .isFalse (fun hh => h (Except.ok.inj hh))
  | .error _, .ok _ => .isFalse (fun hh => Except.noConfusion hh)
  | .ok _, .error _ => .isFalse (fun hh => Except.noConfusion hh)

/-! ## Python string primitives used by the embedded code -/

/-- `str.lower` on one ASCII character: code points 65–90 shift by 32,
everything else is unchanged. -/
def pyCharLower (c : Char) : Char :=
  if 65 ≤ c.toNat ∧ c.toNat ≤ 90 then Char.ofNat (c.toNat + 32) else c

/-- `str.lower` on a string, represented as its character list. -/
def pyLower (s : List Char) : List Char :=
  s.map pyCharLower

/-- `str.replace(old, new)` for one-character patterns. -/
def pyReplace (old new : Char) (s : List Char) : List Char :=
  s.map (fun c => if c = old then new else c)

/-- `str.lower` on a `String`. -/
def pyLowerStr (s : String) : String :=
  ⟨pyLower s.data⟩

/-- Does `haystack` start with `needle`? -/
def listStartsWith : List Char → List Char → Bool
  | [], _ => true
  | _ :: _, [] => false
  | a :: as, b :: bs => a = b && listStartsWith as bs

/-- Is `needle` a contiguous sublist of `haystack`? -/
def listIsInfixOf (needle : List Char) : List Char → Bool
  | [] => needle.isEmpty
  | b :: bs => listStartsWith needle (b :: bs) || listIsInfixOf needle bs

/-- Python's `needle in haystack` substring test. -/
def pyIn (needle haystack : String) : Bool :=
  listIsInfixOf needle.data haystack.data

/-! ## Module environment of `src/mistertrade/exchanges/abstract.py`

`abstract.py` (lines 1–18) imports `argparse, functools, abc, logging,
time, requests, collections, re`, does `from . import constants`,
`from .. import cli`, `from .errors import *` (binding `ExchangeError`
and `MinimumTradeSizeError`), and then defines its own module-level
names.  Crucially, `math` is never imported. -/

/-- Every global name bound in the module `mistertrade.exchanges.abstract`. -/
def abstractModuleNames : List String :=
  ["argparse", "functools", "abc", "logging", "time", "requests",
   "collections", "re", "constants", "cli",
   "ExchangeError", "MinimumTradeSizeError",
   "_exchange_name_pattern", "exchange_name", "get_exchange_name",
   "is_exchange_class", "get_exchange_classes", "get_exchange_instances",
   "Exchange", "ExchangeAPI", "ExchangeCLI", "__all__"]

/-- Floor of `q` at `10^precision` granularity:
`math.floor(q * 10^p) / 10^p`. -/
def floorAt (q : ℚ) (precision : ℕ) : ℚ :=
  (⌊q * (10 : ℚ) ^ precision⌋ : ℚ) / (10 : ℚ) ^ precision

/-- Ceiling of `q` at `10^precision` granularity:
`math.ceil(q * 10^p) / 10^p`. -/
def ceilAt (q : ℚ) (precision : ℕ) : ℚ :=
  (⌈q * (10 : ℚ) ^ precision⌉ : ℚ) / (10 : ℚ) ^ precision

/-- `ExchangeAPI.price_with_fee` (abstract.py lines 144–161).  The `fee`
argument stands for the abstract method `self.fee`; concrete backends
supply it.  The body first validates `buy_or_sell`, computes
`fee = abs(self.fee(price, base_coin))` and `price = abs(price)`, and then
evaluates `math.floor` (sell) or `math.ceil` (buy): an attribute access on
the global `math`, which the defining module never binds, so execution
raises `NameError` there.  The `.ok` branches record what the code would
return if `math` resolved. -/
def price_with_fee (fee : ℚ → String → ℚ) (buy_or_sell : String) (price : ℚ)
    (base_coin : String) (precision : ℕ := 8) : Except PyErr ℚ :=
  if buy_or_sell ≠ "buy" ∧ buy_or_sell ≠ "sell" then
    .error .valueError
  else
    let feeV := |fee price base_coin|
    let priceV := |price|
    if buy_or_sell = "sell" then
      if "math" ∈ abstractModuleNames then
        .ok (floorAt (priceV + feeV * (-1)) precision)
      else
        .error (.nameError "math")
    else
      if "math" ∈ abstractModuleNames then
        .ok (ceilAt (priceV + feeV) precision)
      else
        .error (.nameError "math")

/-- Modelled from the spec (§4.4 "Fee-Adjusted Pricing"): the intended
behaviour of `price_with_fee` — the behaviour its docstring and the spec
describe, i.e. what the code computes once `math` is importable.  Kept
separate from `price_with_fee`, the embedding of the source as written. -/
def price_with_fee_spec (fee : ℚ → String → ℚ) (buy_or_sell : String) (price : ℚ)
    (base_coin : String) (precision : ℕ := 8) : Except PyErr ℚ :=
  if buy_or_sell ≠ "buy" ∧ buy_or_sell ≠ "sell" then
    .error .valueError
  else
    let feeV := |fee price base_coin|
    let priceV := |price|
    if buy_or_sell = "sell" then
      .ok (floorAt (priceV - feeV) precision)
    else
      .ok (ceilAt (priceV + feeV) precision)

/-- `BittrexAPI.fee` (bittrex.py lines 63–64): `quantity * 0.0025`. -/
def bittrexFee (quantity : ℚ) (_base_coin : String) : ℚ :=
  quantity * (25 / 10000)

/-- `BinanceAPI.fee` (binance.py lines 65–66): `quantity * 0.0025`. -/
def binanceFee (quantity : ℚ) (_base_coin : String) : ℚ :=
  quantity * (25 / 10000)

/-! ## Minimum trade size memo (abstract.py lines 163–178)

`minimum_trade_size` keeps a per-instance attribute
`self.__minimum_trade_sizes`.  The first call finds the attribute missing
(`AttributeError`), performs the one `markets()` fetch, builds the
`market → minimum_trade_size` dict and stores it; later calls index the
stored dict directly.  We model the instance attribute by explicit state
passing and count the `markets()` fetches a call performs. -/

/-- The canonical Market record (spec §3; produced by each backend's
`markets()`). -/
structure Market where
  exchange : String
  base_coin : String
  market_coin : String
  market : String
  minimum_trade_size : ℚ
  deriving DecidableEq, Repr

/-- Lookup in a Python dict built from an association list
(`dict([...])`): later bindings overwrite earlier ones, so indexing
returns the last binding of the key. -/
def pyDictLookup (l : List (String × ℚ)) (k : String) : Option ℚ :=
  l.reverse.lookup k

/-- The dict comprehension on abstract.py line 168:
`dict([(market['market'], market['minimum_trade_size']) for market in self.markets()])`. -/
def buildMinimumTradeSizes (markets : List Market) : List (String × ℚ) :=
  markets.map (fun m => (m.market, m.minimum_trade_size))

/-- The instance attribute `self.__minimum_trade_sizes`: absent before the
first call, then the built dict. -/
structure TradeSizeCache where
  sizes : Option (List (String × ℚ))
  deriving DecidableEq, Repr

/-- `ExchangeAPI.minimum_trade_size` (abstract.py lines 163–169), with the
`markets()` fetch result supplied as data.  Returns the result, the
updated instance state, and the number of `markets()` fetches this call
performed.  Indexing a dict at a missing key raises `KeyError`; only an
`AttributeError` (missing memo attribute) triggers the fetch-and-build
path. -/
def minimum_trade_size (markets : List Market) (st : TradeSizeCache)
    (market : String) : Except PyErr ℚ × TradeSizeCache × ℕ :=
  match st.sizes with
  | some sizes =>
      (match pyDictLookup sizes market with
       | some v => .ok v
       | none => .error (.keyError market),
       st, 0)
  | none =>
      let sizes := buildMinimumTradeSizes markets
      (match pyDictLookup sizes market with
       | some v => .ok v
       | none => .error (.keyError market),
       ⟨some sizes⟩, 1)

/-- A sequence of `minimum_trade_size` calls on one backend instance:
threads the state through and sums the fetch counts. -/
def runMinimumTradeSizeCalls (markets : List Market) :
    TradeSizeCache → List String → TradeSizeCache × ℕ
  | st, [] => (st, 0)
  | st, q :: qs =>
      let r := minimum_trade_size markets st q
      let rest := runMinimumTradeSizeCalls markets r.2.1 qs
      (rest.1, r.2.2 + rest.2)

/-- Local names bound in the body of
`ExchangeAPI.validate_minimum_trade_size` (abstract.py lines 171–178):
the parameters and the one local variable.  The name `market_coin`
used on line 176 is not among them. -/
def validateMTSLocalNames : List String :=
  ["self", "market", "quantity", "rate", "minimum_trade_size"]

/-- `ExchangeAPI.validate_minimum_trade_size` (abstract.py lines 171–178).
When `quantity < minimum_trade_size` the code evaluates
`MinimumTradeSizeError(market_coin=market_coin, ...)`; the name
`market_coin` is bound neither locally nor in the module, so Python
raises `NameError` before the intended exception can be constructed. -/
def validate_minimum_trade_size (markets : List Market) (st : TradeSizeCache)
    (market : String) (quantity _rate : ℚ) :
    Except PyErr Unit × TradeSizeCache × ℕ :=
  let r := minimum_trade_size markets st market
  match r.1 with
  | .error e => (.error e, r.2)
  | .ok m =>
      if quantity < m then
        if "market_coin" ∈ validateMTSLocalNames ∨
           "market_coin" ∈ abstractModuleNames then
          (.error (.minimumTradeSizeError market quantity m), r.2)
        else
          (.error (.nameError "market_coin"), r.2)
      else
        (.ok (), r.2)

/-! ## Order book validation (abstract.py lines 204–218) -/

/-- One order-book entry, a dict that may or may not carry the
`quantity` and `rate` keys. -/
structure OBEntry where
  quantity : Option ℚ
  rate : Option ℚ
  deriving DecidableEq, Repr

/-- An order book, a dict that may or may not carry the `buy` and `sell`
keys. -/
structure Orderbook where
  buy : Option (List OBEntry)
  sell : Option (List OBEntry)
  deriving DecidableEq, Repr

/-- `side[0]['rate']`: indexing an empty list raises `IndexError`;
a missing `rate` key raises `KeyError`. -/
def headRate (side : List OBEntry) : Except PyErr ℚ :=
  match side.head? with
  | none => .error .indexError
  | some e =>
      match e.rate with
      | none => .error (.keyError "rate")
      | some r => .ok r

/-- `side[-1]['rate']`. -/
def lastRate (side : List OBEntry) : Except PyErr ℚ :=
  match side.getLast? with
  | none => .error .indexError
  | some e =>
      match e.rate with
      | none => .error (.keyError "rate")
      | some r => .ok r

/-- `ExchangeAPI.validate_orderbook` (abstract.py lines 204–218).  Note
that the sortedness checks on lines 215–218 compare only the first and
the last entry of each side.  (On lines 212/214 the messages are built
with `"...{buy_or_sell}...".format("buy")`, which itself raises
`KeyError('buy_or_sell')`; either way a `KeyError` propagates, which the
model keeps as `.keyError`.) -/
def validate_orderbook (orderbook : Option Orderbook)
    (minimum_length : ℕ := 10) : Except PyErr Unit :=
  match orderbook with
  | none => .error .valueError
  | some ob =>
      match ob.buy, ob.sell with
      | none, _ => .error (.keyError "buy")
      | _, none => .error (.keyError "sell")
      | some buyL, some sellL =>
          if buyL.length < minimum_length ∨ sellL.length < minimum_length then
            .error .valueError
          else if buyL.any (fun e => e.quantity.isNone || e.rate.isNone) then
            .error (.keyError "buy_or_sell")
          else if sellL.any (fun e => e.quantity.isNone || e.rate.isNone) then
            .error (.keyError "buy_or_sell")
          else
            match headRate buyL, lastRate buyL with
            | .ok bf, .ok bl =>
                if bf < bl then .error .valueError
                else
                  match headRate sellL, lastRate sellL with
                  | .ok sf, .ok sl =>
                      if sl < sf then .error .valueError
                      else .ok ()
                  | .error e, _ => .error e
                  | _, .error e => .error e
            | .error e, _ => .error e
            | _, .error e => .error e

/-- `a`'s rate is at most `b`'s; entries lacking a rate impose no
constraint. -/
def entryRateLe (a b : OBEntry) : Bool :=
  match a.rate, b.rate with
  | some ra, some rb => ra ≤ rb
  | _, _ => true

/-- The spec-side notion the claim uses: the side's rates are
non-increasing over all consecutive entries. -/
def ratesNonIncreasing : List OBEntry → Bool
  | [] => true
  | [_] => true
  | a :: b :: rest => entryRateLe b a && ratesNonIncreasing (b :: rest)

/-- The spec-side notion the claim uses: the side's rates are
non-decreasing over all consecutive entries. -/
def ratesNonDecreasing : List OBEntry → Bool
  | [] => true
  | [_] => true
  | a :: b :: rest => entryRateLe a b && ratesNonDecreasing (b :: rest)

/-- A buy side that is *not* non-increasing (the second rate, 12,
exceeds the first, 10) but whose endpoints pass the code's
first-vs-last comparison. -/
def cexBuySide : List OBEntry :=
  [10, 12, 9, 8, 7, 6, 5, 4, 3, 2].map (fun r : ℚ => ⟨some 1, some r⟩)

/-- A well-formed non-decreasing sell side. -/
def cexSellSide : List OBEntry :=
  [1, 2, 3, 4, 5, 6, 7, 8, 9, 10].map (fun r : ℚ => ⟨some 1, some r⟩)

/-- An order book whose buy side is *not* non-increasing but which the
code accepts. -/
def cexOrderbook : Orderbook where
  buy := some cexBuySide
  sell := some cexSellSide

/-! ## Order normalization (bittrex.py lines 255–398, binance.py lines 140–185) -/

/-- The canonical Order record (spec §3); `meta` (the raw payload echo)
is omitted as it carries no invariant. -/
structure Order where
  order_id : Option String
  buy_or_sell : String
  order_type : String
  exchange : String
  market : String
  base_coin : String
  market_coin : String
  quantity : ℚ
  quantity_remaining : ℚ
  rate : ℚ
  price : ℚ
  is_open : Bool
  time : Option String
  is_filled : Bool
  is_partially_filled : Bool
  deriving DecidableEq, Repr

/-- The two assignments both backends perform last
(bittrex.py lines 314–315, binance.py lines 183–184):
`result['is_filled'] = result['quantity_remaining'] == 0` and
`result['is_partially_filled'] = result['quantity_remaining'] > 0 and
result['quantity_remaining'] < result['quantity']`. -/
def finalizeOrderFlags (r : Order) : Order :=
  { r with
    is_filled := decide (r.quantity_remaining = 0),
    is_partially_filled :=
      decide (r.quantity_remaining > 0 ∧ r.quantity_remaining < r.quantity) }

/-- The fields of a raw Bittrex order payload that `__parse_order` reads;
each is optional because the various Bittrex endpoints supply different
subsets. -/
structure BittrexOrderPayload where
  «Type» : Option String
  OrderType : Option String
  BuyOrSell : Option String
  OrderUuid : Option String
  OrderId : Option String
  Exchange : Option String
  MarketName : Option String
  TimeStamp : Option String
  Opened : Option String
  Quantity : Option ℚ
  QuantityRemaining : Option ℚ
  PricePerUnit : Option ℚ
  Rate : Option ℚ
  Limit : Option ℚ
  Price : Option ℚ
  IsOpen : Option Bool
  deriving DecidableEq, Repr

/-- bittrex.py lines 259–264: `BuyOrSell` wins when present (lowercased);
otherwise a substring test on the raw order type, which is `None`-unsafe
(`'SELL' in None` raises `TypeError`). -/
def bittrexBuyOrSell (buyOrSell order_type0 : Option String) :
    Except PyErr String :=
  match buyOrSell with
  | some b => .ok (pyLowerStr b)
  | none =>
      match order_type0 with
      | none => .error .typeError
      | some t =>
          if pyIn "SELL" t then .ok "sell"
          else if pyIn "BUY" t then .ok "buy"
          else .error .valueError

/-- bittrex.py lines 266–268 / binance.py lines 148–151: normalize the
raw order type by substring test against `LIMIT`/`MARKET`. -/
def normalizeOrderType (order_type0 : Option String) : Except PyErr String :=
  match order_type0 with
  | none => .error .typeError
  | some t =>
      if pyIn "LIMIT" t then .ok "limit"
      else if pyIn "MARKET" t then .ok "market"
      else .error .valueError

/-- Python's `str.split(sep)` for a one-character separator (empty parts
are kept, as in Python). -/
def pySplitChar (sep : Char) : List Char → List (List Char)
  | [] => [[]]
  | c :: cs =>
      if c = sep then [] :: pySplitChar sep cs
      else
        match pySplitChar sep cs with
        | [] => [[c]]
        | r :: rs => (c :: r) :: rs

/-- `base_coin, market_coin = market.split('-')`: unpacking fails with
`ValueError` unless the split yields exactly two parts. -/
def pySplitMarket (market : String) : Except PyErr (String × String) :=
  match pySplitChar '-' market.data with
  | [a, b] => .ok (⟨a⟩, ⟨b⟩)
  | _ => .error .valueError

/-- Python truthiness filter for an optional number:
`'K' in order and order['K']` is true only for a present, non-zero
value. -/
def truthyQ : Option ℚ → Option ℚ
  | some v => if v = 0 then none else some v
  | none => none

/-- bittrex.py lines 275–284: the rate fallback chain
`PricePerUnit`, `Rate`, `Limit`, then `Price / Quantity`. -/
def bittrexRate (order : BittrexOrderPayload) (quantity : ℚ) :
    Except PyErr ℚ :=
  match truthyQ order.PricePerUnit with
  | some v => .ok v
  | none =>
      match truthyQ order.Rate with
      | some v => .ok v
      | none =>
          match truthyQ order.Limit with
          | some v => .ok v
          | none =>
              match truthyQ order.Price with
              | some p =>
                  if quantity = 0 then .error .zeroDivisionError
                  else .ok (p / quantity)
              | none => .error .valueError

/-- bittrex.py lines 289–292: fee-adjusted cash amount; note that
bittrex.py *does* `import math`, and ceiling is applied for both sides
(for a sell the fee is negated first), at `10^7` granularity. -/
def bittrexPriceCeil (buy_or_sell : String) (quantity rate : ℚ)
    (base_coin : String) : ℚ :=
  let fee := bittrexFee (quantity * rate) base_coin
  let fee := if buy_or_sell = "sell" then fee * (-1) else fee
  ceilAt (quantity * rate + fee) 7

/-- bittrex.py lines 286–292: trust a positive reported `Price`,
otherwise compute the fee-adjusted amount. -/
def bittrexPrice (order : BittrexOrderPayload) (buy_or_sell : String)
    (quantity rate : ℚ) (base_coin : String) : ℚ :=
  match order.Price with
  | some p => if p > 0 then p else bittrexPriceCeil buy_or_sell quantity rate base_coin
  | none => bittrexPriceCeil buy_or_sell quantity rate base_coin

/-- `BittrexAPI.__parse_order` (bittrex.py lines 255–398).  A `None`
payload maps to `None` (line 256); otherwise the normalized Order is
built and the two fill flags are assigned last. -/
def bittrexParseOrder : Option BittrexOrderPayload → Except PyErr (Option Order)
  | none => .ok none
  | some order =>
      let order_type0 := order.«Type» <|> order.OrderType
      match bittrexBuyOrSell order.BuyOrSell order_type0 with
      | .error e => .error e
      | .ok buy_or_sell =>
          match normalizeOrderType order_type0 with
          | .error e => .error e
          | .ok order_type =>
              match order.Quantity with
              | none => .error (.keyError "Quantity")
              | some quantity =>
                  match order.Exchange <|> order.MarketName with
                  | none => .error .attributeError
                  | some market =>
                      match pySplitMarket market with
                      | .error e => .error e
                      | .ok (base_coin, market_coin) =>
                          match bittrexRate order quantity with
                          | .error e => .error e
                          | .ok rate =>
                              .ok (some (finalizeOrderFlags {
                                order_id := order.OrderUuid <|> order.OrderId,
                                buy_or_sell := buy_or_sell,
                                order_type := order_type,
                                exchange := "bittrex",
                                market := market,
                                base_coin := base_coin,
                                market_coin := market_coin,
                                quantity := quantity,
                                quantity_remaining :=
                                  order.QuantityRemaining.getD quantity,
                                rate := rate,
                                price := bittrexPrice order buy_or_sell
                                  quantity rate base_coin,
                                is_open := order.IsOpen.getD false,
                                time := order.TimeStamp <|> order.Opened,
                                is_filled := false,
                                is_partially_filled := false }))

/-- The fields of a raw Binance order payload that `__parse_order`
reads. -/
structure BinanceOrderPayload where
  side : Option String
  type : Option String
  orderId : Option String
  origQty : Option ℚ
  executedQty : Option ℚ
  price : Option ℚ
  status : Option String
  time : Option String
  deriving DecidableEq, Repr

/-- binance.py lines 143–146: side normalization by substring test. -/
def binanceSide (side : String) : Except PyErr String :=
  if pyIn "SELL" side then .ok "sell"
  else if pyIn "BUY" side then .ok "buy"
  else .error .valueError

/-- `BinanceAPI.__parse_order` (binance.py lines 140–185).  Line 157
calls the inherited `self.price_with_fee`, whose globals are those of
`abstract.py`, so it raises `NameError('math')`; the error propagates
out of the parse. -/
def binanceParseOrder (market : String) (order : BinanceOrderPayload) :
    Except PyErr Order :=
  match pySplitMarket market with
  | .error e => .error e
  | .ok (base_coin, market_coin) =>
      match order.side with
      | none => .error (.keyError "side")
      | some side =>
          match binanceSide side with
          | .error e => .error e
          | .ok buy_or_sell =>
              match normalizeOrderType order.type with
              | .error e => .error e
              | .ok order_type =>
                  match order.orderId with
                  | none => .error (.keyError "orderId")
                  | some order_id =>
                      match order.origQty with
                      | none => .error (.keyError "origQty")
                      | some quantity =>
                          match order.executedQty with
                          | none => .error (.keyError "executedQty")
                          | some executedQty =>
                              match order.price with
                              | none => .error (.keyError "price")
                              | some rate =>
                                  match price_with_fee binanceFee buy_or_sell
                                      (quantity * rate) base_coin 8 with
                                  | .error e => .error e
                                  | .ok price =>
                                      match order.status with
                                      | none => .error (.keyError "status")
                                      | some status =>
                                          match order.time with
                                          | none => .error (.keyError "time")
                                          | some time =>
                                              .ok (finalizeOrderFlags {
                                                order_id := some order_id,
                                                buy_or_sell := buy_or_sell,
                                                order_type := order_type,
                                                exchange := "binance",
                                                market := market,
                                                base_coin := base_coin,
                                                market_coin := market_coin,
                                                quantity := quantity,
                                                quantity_remaining :=
                                                  quantity - executedQty,
                                                rate := rate,
                                                price := price,
                                                is_open := decide
                                                  (status = "NEW" ∨
                                                   status = "PARTIALLY_FILLED"),
                                                time := some time,
                                                is_filled := false,
                                                is_partially_filled := false })

/-- An order record counts as produced by the system's order
normalization when some backend's parse returns it. -/
def OrderProduced (o : Order) : Prop :=
  (∃ inp, bittrexParseOrder inp = .ok (some o)) ∨
  (∃ m inp, binanceParseOrder m inp = .ok o)

/-! ## Order placement pipelines (C4)

The observable side effects of each backend's order-placement methods on
their success path, read off the call chains in bittrex.py and
binance.py.  `networkRequest` records the order-submission HTTP call;
`validateMinTradeSize` records a call to
`ExchangeAPI.validate_minimum_trade_size`. -/

inductive TradeEvent where
  | validateMinTradeSize : TradeEvent
  | networkRequest (url : String) : TradeEvent
  deriving DecidableEq, Repr

/-- Every `networkRequest` in the list is preceded (strictly earlier in
the list) by some `validateMinTradeSize`. -/
def validatedBeforeEveryRequestAux (seenValidate : Bool) :
    List TradeEvent → Bool
  | [] => true
  | .validateMinTradeSize :: es => validatedBeforeEveryRequestAux true es
  | .networkRequest _ :: es =>
      seenValidate && validatedBeforeEveryRequestAux seenValidate es

def validatedBeforeEveryRequest (events : List TradeEvent) : Bool :=
  validatedBeforeEveryRequestAux false events

/-- `BittrexAPI.ask` → `__bittrex_ask` (bittrex.py lines 107–126,
476–482): `__bittrex_validate_trade_params` (which calls
`validate_minimum_trade_size`, line 496) runs first, then the POST. -/
def bittrexAskEvents : List TradeEvent :=
  [.validateMinTradeSize,
   .networkRequest "https://bittrex.com/api/v2.0/key/market/tradesell"]

/-- `BittrexAPI.bid` → `__bittrex_bid` (bittrex.py lines 151–170,
484–490). -/
def bittrexBidEvents : List TradeEvent :=
  [.validateMinTradeSize,
   .networkRequest "https://bittrex.com/api/v2.0/key/market/tradebuy"]

/-- `BittrexAPI.ask_when_less_than` (bittrex.py lines 129–149). -/
def bittrexAskWhenLessThanEvents : List TradeEvent := bittrexAskEvents

/-- `BittrexAPI.bid_when_greater_than` (bittrex.py lines 172–192). -/
def bittrexBidWhenGreaterThanEvents : List TradeEvent := bittrexBidEvents

/-- `BinanceAPI.ask` (binance.py lines 68–72): the method issues the
order request directly; no validation call appears anywhere on the
path. -/
def binanceAskEvents : List TradeEvent :=
  [.networkRequest "/api/v3/order?side=SELL&type=LIMIT"]

/-- `BinanceAPI.ask_when_less_than` (binance.py lines 74–78). -/
def binanceAskWhenLessThanEvents : List TradeEvent :=
  [.networkRequest "/api/v3/order?side=SELL&type=STOP_LOSS_LIMIT"]

/-- `BinanceAPI.bid` (binance.py lines 80–84). -/
def binanceBidEvents : List TradeEvent :=
  [.networkRequest "/api/v3/order?side=BUY&type=LIMIT"]

/-- `BinanceAPI.bid_when_greater_than` (binance.py lines 86–90). -/
def binanceBidWhenGreaterThanEvents : List TradeEvent :=
  [.networkRequest "/api/v3/order?side=BUY&type=TAKE_PROFIT_LIMIT"]

/-- `HitbtcAPI.ask`/`bid`/… (hitbtc.py lines 66–76) raise
`NotImplementedError` immediately: no side effects at all. -/
def hitbtcPlacementEvents : List TradeEvent := []

/-! ## Command registry (src/mistertrade/cli/commands.py)

Identifiers and command names are represented as character lists so the
character-level `lower`/`replace` operations of the source can be
reasoned about directly. -/

/-- A character of a Python identifier as the claim describes them:
lowercase letter, digit, or underscore. -/
def isPyIdentChar (c : Char) : Bool :=
  (decide (97 ≤ c.toNat) && decide (c.toNat ≤ 122)) ||
  (decide (48 ≤ c.toNat) && decide (c.toNat ≤ 57)) ||
  c = '_'

/-- A character allowed by `_command_name_pattern = "^[a-z0-9-]{3,}$"`
(commands.py line 3). -/
def isCommandNameChar (c : Char) : Bool :=
  (decide (97 ≤ c.toNat) && decide (c.toNat ≤ 122)) ||
  (decide (48 ≤ c.toNat) && decide (c.toNat ≤ 57)) ||
  c = '-'

/-- `_command_name_pattern.match(name)` with the anchored pattern
`^[a-z0-9-]{3,}$`: at least three characters, all from the class. -/
def commandNamePattern (s : List Char) : Bool :=
  decide (3 ≤ s.length) && s.all isCommandNameChar

/-- Default-name derivation in the `command` decorator (commands.py
lines 48–49): `func.__name__.lower().replace('_', '-')`. -/
def deriveCommandName (ident : List Char) : List Char :=
  pyReplace '_' '-' (pyLower ident)

/-- Registration of a command with no explicit name override
(commands.py lines 35–61 together with `_Command.__init__` lines 7–18):
derive the name, then validate it against the pattern; an invalid name
raises `ValueError` at registration time. -/
def commandRegister (ident : List Char) : Except PyErr (List Char) :=
  let nm := deriveCommandName ident
  if commandNamePattern nm then .ok nm else .error .valueError

/-- Method-name derivation used at resolution and invocation time
(`_Command.__call__` line 21 and `getcommand` line 73):
`name.lower().replace('-', '_')`. -/
def methodNameOf (name : List Char) : List Char :=
  pyReplace '-' '_' (pyLower name)

/-- `_Command.__call__` (commands.py lines 20–27): look the derived
method name up on the target and invoke it; a missing attribute raises
`AttributeError`.  The target is modelled as its method table. -/
def commandCall {α : Type} (target : List (List Char × α)) (name : List Char) :
    Except PyErr α :=
  match target.lookup (methodNameOf name) with
  | some h => .ok h
  | none => .error .attributeError

/-- A Python class for command lookup: its own attribute dictionary
(method name ↦ the method's `__command__` metadata, `none` when the
method carries no command tag) and its direct base classes.  Command
metadata is identified by a numeric tag standing for the handler. -/
inductive PyClass where
  | mk (own : List (List Char × Option ℕ)) (bases : List PyClass)

def PyClass.own : PyClass → List (List Char × Option ℕ)
  | .mk own _ => own

def PyClass.bases : PyClass → List PyClass
  | .mk _ bases => bases

mutual
/-- `getattr(cls, name)` on a class: the class's own dictionary first,
then the bases in order (each searched recursively). -/
def getattrClass (c : PyClass) (n : List Char) : Option (Option ℕ) :=
  match c with
  | .mk own bases =>
      match own.lookup n with
      | some v => some v
      | none => getattrBases bases n

def getattrBases (cs : List PyClass) (n : List Char) : Option (Option ℕ) :=
  match cs with
  | [] => none
  | c :: rest =>
      match getattrClass c n with
      | some v => some v
      | none => getattrBases rest n
end

/-- The loop of `getcommand` (commands.py lines 76–81): for each
candidate class, `getattr(getattr(base, method_name), '__command__')`;
any `AttributeError` (missing method, or method without `__command__`)
moves on to the next candidate. -/
def getcommandSearch (n : List Char) : List PyClass → Option ℕ
  | [] => none
  | b :: rest =>
      match getattrClass b n with
      | some (some cmd) => some cmd
      | _ => getcommandSearch n rest

/-- `getcommand` (commands.py lines 63–81): derive the method name, then
search `[cls] + cls.__bases__` in order, returning the first hit. -/
def getcommand (cls : PyClass) (name : List Char) : Option ℕ :=
  getcommandSearch (methodNameOf name) (cls :: cls.bases)

/-! ## Exchange registry (src/mistertrade/exchanges/__init__.py) -/

/-- Python's `<` on strings: lexicographic comparison of code points.
`pyCharListLe a b` decides `a ≤ b`. -/
def pyCharListLe : List Char → List Char → Bool
  | [], _ => true
  | _ :: _, [] => false
  | a :: as, b :: bs =>
      if a.toNat < b.toNat then true
      else if b.toNat < a.toNat then false
      else pyCharListLe as bs

/-- The order `list.sort()` uses on strings. -/
def pyStrLe (a b : String) : Prop := pyCharListLe a.data b.data = true

instance : DecidableRel pyStrLe := fun a b =>
  instDecidableEqBool (pyCharListLe a.data b.data) true

/-- Registry initialization (exchanges/__init__.py lines 6–13):
`_exchange_names = list(_exchanges.keys()); _exchange_names.sort()`, and
`names()` returns the sorted list.  `list.sort()` is a stable ascending
sort, modelled by insertion sort under the string order. -/
def names (registered : List String) : List String :=
  List.insertionSort pyStrLe registered

/-! ## Concrete inputs used by witnesses and counterexamples -/

/-- A one-market backend catalogue: minimum trade size `0.001` for
`USDT-BTC` (the spec's §8 scenario). -/
def usdtBtcMarkets : List Market :=
  [{ exchange := "bittrex", base_coin := "USDT", market_coin := "BTC",
     market := "USDT-BTC", minimum_trade_size := mkRat 1 1000 }]

/-- `isNetworkRequest e` holds exactly on `networkRequest` events. -/
def isNetworkRequest : TradeEvent → Bool
  | .networkRequest _ => true
  | _ => false

/-- A Bittrex order payload in the shape of a closed order fetched by id
(bittrex.py lines 351–377). -/
def sampleBittrexPayload : BittrexOrderPayload where
  «Type» := some "LIMIT_BUY"
  OrderType := none
  BuyOrSell := none
  OrderUuid := some "14bee319"
  OrderId := none
  Exchange := some "BTC-XMR"
  MarketName := none
  TimeStamp := none
  Opened := some "2017-12-19T17:33:14.517"
  Quantity := some 2
  QuantityRemaining := some 0
  PricePerUnit := some 5
  Rate := none
  Limit := none
  Price := some 10
  IsOpen := some false

/-- The Order that `bittrexParseOrder` produces from
`sampleBittrexPayload`. -/
def sampleBittrexOrder : Order where
  order_id := some "14bee319"
  buy_or_sell := "buy"
  order_type := "limit"
  exchange := "bittrex"
  market := "BTC-XMR"
  base_coin := "BTC"
  market_coin := "XMR"
  quantity := 2
  quantity_remaining := 0
  rate := 5
  price := 10
  is_open := false
  time := some "2017-12-19T17:33:14.517"
  is_filled := true
  is_partially_filled := false

/-- The method name `ask` as a character list. -/
def askName : List Char := ['a', 's', 'k']

/-- A base command-bearing class declaring command metadata (tag `1`)
on its `ask` method. -/
def baseCLIClass : PyClass := .mk [(askName, some 1)] []

/-- A subtype re-declaring `ask` with its own command metadata
(tag `2`). -/
def subCLIClass : PyClass := .mk [(askName, some 2)] [baseCLIClass]

/-! ## Helper lemmas -/

/-- Helper: for either valid side, `price_with_fee` always hits the
unresolved global `math` and raises `NameError`. -/
lemma price_with_fee_nameError (fee : ℚ → String → ℚ) (buy_or_sell : String)
    (price : ℚ) (base_coin : String) (precision : ℕ)
    (h : buy_or_sell = "buy" ∨ buy_or_sell = "sell") :
    price_with_fee fee buy_or_sell price base_coin precision =
      .error (.nameError "math") := by
  rcases h with h | h <;> subst h <;> simp [price_with_fee, abstractModuleNames]

/-- `str.lower` fixes lowercase letters, digits and the underscore. -/
lemma pyCharLower_of_ident (c : Char) (h : isPyIdentChar c = true) :
    pyCharLower c = c := by
  simp only [isPyIdentChar, Bool.or_eq_true, Bool.and_eq_true,
    decide_eq_true_eq] at h
  rcases h with (⟨h1, h2⟩ | ⟨h1, h2⟩) | h
  · simp only [pyCharLower]
    rw [if_neg]
    omega
  · simp only [pyCharLower]
    rw [if_neg]
    omega
  · subst h
    decide

/-- An identifier character other than `'_'` is also a command-name
character, fixed by both replacements. -/
lemma ident_char_roundtrip (c : Char) (h : isPyIdentChar c = true) :
    (let d := if pyCharLower c = '_' then '-' else pyCharLower c
     if pyCharLower d = '-' then '_' else pyCharLower d) = c := by
  rw [pyCharLower_of_ident c h]
  by_cases hu : c = '_'
  · subst hu
    decide
  · simp only [if_neg hu]
    rw [pyCharLower_of_ident c h]
    rw [if_neg]
    intro hd
    subst hd
    simp [isPyIdentChar] at h

/-- The derived command-name character of an identifier character
matches the name pattern's character class. -/
lemma derive_char_is_cmdChar (c : Char) (h : isPyIdentChar c = true) :
    isCommandNameChar (if pyCharLower c = '_' then '-' else pyCharLower c)
      = true := by
  rw [pyCharLower_of_ident c h]
  by_cases hu : c = '_'
  · subst hu
    decide
  · simp only [if_neg hu]
    simp only [isPyIdentChar, Bool.or_eq_true, Bool.and_eq_true,
      decide_eq_true_eq] at h
    rcases h with (⟨h1, h2⟩ | ⟨h1, h2⟩) | h
    · simp [isCommandNameChar]
      omega
    · simp [isCommandNameChar]
      omega
    · exact absurd h hu

/-- Totality of the string order. -/
lemma pyCharListLe_total : ∀ a b : List Char,
    pyCharListLe a b = true ∨ pyCharListLe b a = true
  | [], _ => Or.inl rfl
  | _ :: _, [] => Or.inr rfl
  | a :: as, b :: bs => by
      simp only [pyCharListLe]
      rcases Nat.lt_trichotomy a.toNat b.toNat with h | h | h
      · left
        rw [if_pos h]
      · rw [if_neg (by omega), if_neg (by omega),
          if_neg (by omega), if_neg (by omega)]
        exact pyCharListLe_total as bs
      · right
        rw [if_pos h]

/-- Transitivity of the string order. -/
lemma pyCharListLe_trans : ∀ a b c : List Char,
    pyCharListLe a b = true → pyCharListLe b c = true →
    pyCharListLe a c = true
  | [], _, _ => by
      intro _ _
      rfl
  | _ :: _, [], _ => by
      intro h _
      exact absurd h (by simp [pyCharListLe])
  | _ :: _, _ :: _, [] => by
      intro _ h
      exact absurd h (by simp [pyCharListLe])
  | a :: as, b :: bs, c :: cs => by
      simp only [pyCharListLe]
      intro h1 h2
      by_cases hab : a.toNat < b.toNat
      · by_cases hbc : b.toNat < c.toNat
        · rw [if_pos (by omega)]
        · rw [if_neg hbc] at h2
          by_cases hcb : c.toNat < b.toNat
          · rw [if_pos hcb] at h2
            exact absurd h2 (by simp)
          · rw [if_pos (by omega)]
      · rw [if_neg hab] at h1
        by_cases hba : b.toNat < a.toNat
        · rw [if_pos hba] at h1
          exact absurd h1 (by simp)
        · rw [if_neg hba] at h1
          by_cases hbc : b.toNat < c.toNat
          · rw [if_pos (by omega)]
          · rw [if_neg hbc] at h2
            by_cases hcb : c.toNat < b.toNat
            · rw [if_pos hcb] at h2
              exact absurd h2 (by simp)
            · rw [if_neg hcb] at h2
              rw [if_neg (by omega), if_neg (by omega)]
              exact pyCharListLe_trans as bs cs h1 h2

instance : IsTotal String pyStrLe :=
  ⟨fun a b => pyCharListLe_total a.data b.data⟩

instance : IsTrans String pyStrLe :=
  ⟨fun a b c hab hbc => pyCharListLe_trans a.data b.data c.data hab hbc⟩

/-- The final flag assignments establish exactly the fill-state
biconditionals. -/
lemma finalizeOrderFlags_spec (r : Order) :
    ((finalizeOrderFlags r).is_filled = true ↔
      (finalizeOrderFlags r).quantity_remaining = 0) ∧
    ((finalizeOrderFlags r).is_partially_filled = true ↔
      0 < (finalizeOrderFlags r).quantity_remaining ∧
      (finalizeOrderFlags r).quantity_remaining <
        (finalizeOrderFlags r).quantity) := by
  simp [finalizeOrderFlags]

/-- A run of `minimum_trade_size` calls from an already-built memo does
no fetch and never touches the memo. -/
lemma runMinimumTradeSizeCalls_cached (markets : List Market)
    (sizes : List (String × ℚ)) : ∀ qs : List String,
    runMinimumTradeSizeCalls markets ⟨some sizes⟩ qs = (⟨some sizes⟩, 0)
  | [] => rfl
  | q :: qs => by
      simp only [runMinimumTradeSizeCalls, minimum_trade_size]
      rw [runMinimumTradeSizeCalls_cached markets sizes qs]
      rfl

/-- Every order a Bittrex parse returns went through the final flag
assignments. -/
lemma bittrexParseOrder_shape (inp : Option BittrexOrderPayload) (o : Order)
    (h : bittrexParseOrder inp = .ok (some o)) :
    ∃ r, o = finalizeOrderFlags r := by
  match inp with
  | none =>
      simp [bittrexParseOrder] at h
  | some order =>
      simp only [bittrexParseOrder] at h
      repeat' split at h
      all_goals simp_all
      exact ⟨_, h.symm⟩

/-- Every order a Binance parse returns went through the final flag
assignments. -/
lemma binanceParseOrder_shape (m : String) (inp : BinanceOrderPayload)
    (o : Order) (h : binanceParseOrder m inp = .ok o) :
    ∃ r, o = finalizeOrderFlags r := by
  simp only [binanceParseOrder] at h
  repeat' split at h
  all_goals simp_all
  exact ⟨_, h.symm⟩

/-- Round trip on a full identifier: derive the command name, then map
it back to the method name. -/
lemma methodNameOf_deriveCommandName (s : List Char)
    (h : s.all isPyIdentChar = true) :
    methodNameOf (deriveCommandName s) = s := by
  induction s with
  | nil => rfl
  | cons c cs ih =>
      simp only [List.all_cons, Bool.and_eq_true] at h
      obtain ⟨hc, hcs⟩ := h
      simp only [deriveCommandName, methodNameOf, pyLower, pyReplace,
        List.map_cons, List.map_map] at ih ⊢
      rw [List.cons.injEq]
      exact ⟨ident_char_roundtrip c hc, ih hcs⟩

/-- The derived command name of a valid identifier of length ≥ 3
matches the registration pattern. -/
lemma commandNamePattern_derive (s : List Char)
    (h : s.all isPyIdentChar = true) (hlen : 3 ≤ s.length) :
    commandNamePattern (deriveCommandName s) = true := by
  simp only [commandNamePattern, deriveCommandName, pyLower, pyReplace,
    List.map_map, Bool.and_eq_true, decide_eq_true_eq, List.length_map,
    List.all_map, List.all_eq_true]
  refine ⟨hlen, fun c hcm => ?_⟩
  simp only [List.all_eq_true] at h
  exact derive_char_is_cmdChar c (h c hcm)

/-! ## Claims -/

/-- C1: the claim states that `price_with_fee("sell", price, …)` returns
the absolute price minus the absolute fee floor-rounded at `10^precision`
granularity (dually for `"buy"`).  In fact the code raises
`NameError('math')` at the very input the spec's own §8 scenario uses
(sell, notional 100, fee 0.25, precision 8), where the intended
computation — `price_with_fee_spec`, modelled from spec §4.4 — yields
`99.75 = 399/4 ≤ 100`. -/
theorem C1_price_with_fee_fails_where_claim_computes :
    price_with_fee bittrexFee "sell" 100 "USDT" 8 =
      .error (.nameError "math") ∧
    price_with_fee_spec bittrexFee "sell" 100 "USDT" 8 = .ok (399 / 4) ∧
    (399 / 4 : ℚ) ≤ 100 := by
  refine ⟨price_with_fee_nameError _ _ _ _ _ (Or.inr rfl), ?_, by norm_num⟩
  simp only [price_with_fee_spec]
  norm_num [bittrexFee, floorAt, abs_of_nonneg]

/-- C2: for every input whose `buy_or_sell` is `"buy"` or `"sell"`, the
call reaches the rounding step, whose reference to the unbound module
name `math` raises `NameError` — no such call ever returns a price. -/
theorem C2_price_with_fee_never_returns (fee : ℚ → String → ℚ)
    (buy_or_sell : String) (price : ℚ) (base_coin : String) (precision : ℕ)
    (h : buy_or_sell = "buy" ∨ buy_or_sell = "sell") :
    price_with_fee fee buy_or_sell price base_coin precision =
      .error (.nameError "math") :=
  price_with_fee_nameError fee buy_or_sell price base_coin precision h

/-- Witness for C2 at a concrete buy. -/
theorem C2_price_with_fee_never_returns_witness :
    price_with_fee binanceFee "buy" 5 "BTC" 8 = .error (.nameError "math") :=
  C2_price_with_fee_never_returns binanceFee "buy" 5 "BTC" 8 (Or.inl rfl)

/-- C3: the claim states that a below-minimum placement raises
`MinimumTradeSizeError{market_coin, quantity, minimum_trade_size}`.  In
fact, on the spec's own scenario (minimum 0.001 for `USDT-BTC`, quantity
0.0005), constructing that exception dereferences the name
`market_coin`, which is bound neither locally nor in the module, so the
call raises `NameError('market_coin')` instead. -/
theorem C3_validate_minimum_trade_size_raises_nameError :
    (validate_minimum_trade_size usdtBtcMarkets ⟨none⟩ "USDT-BTC"
        (mkRat 1 2000) 10000).1 = .error (.nameError "market_coin") ∧
    ¬ ("market_coin" ∈ validateMTSLocalNames ∨
       "market_coin" ∈ abstractModuleNames) := by
  constructor
  · decide
  · decide

/-- C4: the claim states that every order-placement operation of every
backend validates the minimum trade size before its network request.
Bittrex's four placement paths do (and Hitbtc never reaches a request),
but all four Binance placement methods issue their order request with no
validation event anywhere on the path. -/
theorem C4_binance_places_orders_without_validation :
    validatedBeforeEveryRequest bittrexAskEvents = true ∧
    validatedBeforeEveryRequest bittrexBidEvents = true ∧
    validatedBeforeEveryRequest bittrexAskWhenLessThanEvents = true ∧
    validatedBeforeEveryRequest bittrexBidWhenGreaterThanEvents = true ∧
    validatedBeforeEveryRequest hitbtcPlacementEvents = true ∧
    validatedBeforeEveryRequest binanceAskEvents = false ∧
    validatedBeforeEveryRequest binanceBidEvents = false ∧
    validatedBeforeEveryRequest binanceAskWhenLessThanEvents = false ∧
    validatedBeforeEveryRequest binanceBidWhenGreaterThanEvents = false ∧
    binanceAskEvents.any isNetworkRequest = true ∧
    TradeEvent.validateMinTradeSize ∉ binanceAskEvents := by
  decide

/-- C5 counterexample: an order book whose buy side is not non-increasing
over consecutive entries (10 then 12) is accepted without error, because
the code compares only the first and last rates. -/
theorem C5_counterexample_accepts_unsorted_buy :
    validate_orderbook (some cexOrderbook) 10 = .ok () ∧
    cexOrderbook.buy = some cexBuySide ∧
    ratesNonIncreasing cexBuySide = false := by
  refine ⟨by decide, rfl, by decide⟩

/-- C6: for every order record produced by a backend's order
normalization — Bittrex's or Binance's — `is_filled` holds iff
`quantity_remaining = 0`, and `is_partially_filled` holds iff
`0 < quantity_remaining < quantity`. -/
theorem C6_fill_flags (o : Order) (h : OrderProduced o) :
    (o.is_filled = true ↔ o.quantity_remaining = 0) ∧
    (o.is_partially_filled = true ↔
      0 < o.quantity_remaining ∧ o.quantity_remaining < o.quantity) := by
  rcases h with ⟨inp, hp⟩ | ⟨m, inp, hp⟩
  · obtain ⟨r, rfl⟩ := bittrexParseOrder_shape inp o hp
    exact finalizeOrderFlags_spec r
  · obtain ⟨r, rfl⟩ := binanceParseOrder_shape m inp o hp
    exact finalizeOrderFlags_spec r

/-- Witness for C6: the order parsed from a concrete closed Bittrex
payload. -/
theorem C6_fill_flags_witness :
    (sampleBittrexOrder.is_filled = true ↔
      sampleBittrexOrder.quantity_remaining = 0) ∧
    (sampleBittrexOrder.is_partially_filled = true ↔
      0 < sampleBittrexOrder.quantity_remaining ∧
      sampleBittrexOrder.quantity_remaining < sampleBittrexOrder.quantity) :=
  C6_fill_flags sampleBittrexOrder
    (Or.inl ⟨some sampleBittrexPayload, by decide⟩)

/-- C7 counterexample: `go` is an operation identifier made of lowercase
letters only, yet registration with no explicit name does not produce
the hyphenated command name — it raises `ValueError`, because the
derived name fails the length ≥ 3 requirement of
`_command_name_pattern`. -/
theorem C7_counterexample_short_identifier :
    (['g', 'o'].all isPyIdentChar = true) ∧
    commandRegister ['g', 'o'] = .error .valueError := by
  decide

/-- C7 (amended): for every operation identifier made of lowercase
letters, digits and underscores *whose length is at least 3*, the
registered command name is the identifier with underscores replaced by
hyphens, resolving it maps hyphens back to underscores, and invocation
binds exactly the method stored under the original identifier. -/
theorem C7_amended_name_roundtrip (ident : List Char)
    (hid : ident.all isPyIdentChar = true) (hlen : 3 ≤ ident.length) :
    commandRegister ident = .ok (deriveCommandName ident) ∧
    deriveCommandName ident = pyReplace '_' '-' ident ∧
    methodNameOf (deriveCommandName ident) = ident ∧
    ∀ (α : Type) (handler : α),
      commandCall [(ident, handler)] (deriveCommandName ident) =
        .ok handler := by
  refine ⟨?_, ?_, methodNameOf_deriveCommandName ident hid, ?_⟩
  · simp [commandRegister, commandNamePattern_derive ident hid hlen]
  · simp only [deriveCommandName, pyLower, pyReplace, List.map_map]
    apply List.map_congr_left
    intro c hc
    simp only [List.all_eq_true] at hid
    simp [pyCharLower_of_ident c (hid c hc)]
  · intro α handler
    simp [commandCall, methodNameOf_deriveCommandName ident hid,
      List.lookup]

/-- Witness for C7 (amended) at the spec's own example identifier
`order_history`. -/
theorem C7_amended_name_roundtrip_witness :
    commandRegister ("order_history".data) =
      .ok (deriveCommandName ("order_history".data)) ∧
    methodNameOf (deriveCommandName ("order_history".data)) =
      "order_history".data :=
  ⟨(C7_amended_name_roundtrip "order_history".data (by decide)
      (by decide)).1,
   (C7_amended_name_roundtrip "order_history".data (by decide)
      (by decide)).2.2.1⟩

/-- C8: command lookup searches the class itself first, then its
declared parents, returning the first match; hence a subtype that
re-declares a command under the same derived method name always
resolves to its own handler, never the base's. -/
theorem C8_subtype_overrides (cls : PyClass) (name : List Char) (cmd : ℕ)
    (h : cls.own.lookup (methodNameOf name) = some (some cmd)) :
    getcommand cls name = some cmd := by
  cases cls with
  | mk own bases =>
      simp only [PyClass.own] at h
      simp [getcommand, getcommandSearch, getattrClass, PyClass.bases, h]

/-- Witness for C8: a subtype re-declaring `ask` (tag 2) over a base
declaring `ask` (tag 1) resolves to the subtype's handler. -/
theorem C8_subtype_overrides_witness :
    getcommand subCLIClass askName = some 2 :=
  C8_subtype_overrides subCLIClass askName 2 (by decide)

/-- C9: after registry initialization `names()` returns the registered
exchange names sorted by the string order (hence deterministically), a
permutation of the registered set; in particular registering bittrex,
binance and hitbtc yields `["binance", "bittrex", "hitbtc"]`. -/
theorem C9_names_sorted :
    (∀ registered : List String,
      List.Sorted pyStrLe (names registered) ∧
      (names registered).Perm registered) ∧
    names ["bittrex", "binance", "hitbtc"] =
      ["binance", "bittrex", "hitbtc"] := by
  refine ⟨fun registered =>
    ⟨List.sorted_insertionSort pyStrLe registered,
     List.perm_insertionSort pyStrLe registered⟩, ?_⟩
  decide

/-- C10: `minimum_trade_size` performs the `markets()` fetch at most
once per backend instance: any sequence of calls from a fresh instance
fetches at most once; the first call on a fresh instance fetches exactly
once and installs the mapping built from that fetch; and every call on a
built memo fetches zero times and leaves the memo untouched. -/
theorem C10_minimum_trade_size_fetches_at_most_once (markets : List Market) :
    (∀ qs : List String,
      (runMinimumTradeSizeCalls markets ⟨none⟩ qs).2 ≤ 1) ∧
    (∀ q : String,
      (minimum_trade_size markets ⟨none⟩ q).2.1 =
        ⟨some (buildMinimumTradeSizes markets)⟩ ∧
      (minimum_trade_size markets ⟨none⟩ q).2.2 = 1) ∧
    (∀ (sizes : List (String × ℚ)) (q : String),
      (minimum_trade_size markets ⟨some sizes⟩ q).2.1 = ⟨some sizes⟩ ∧
      (minimum_trade_size markets ⟨some sizes⟩ q).2.2 = 0) := by
  refine ⟨?_, fun q => ⟨rfl, rfl⟩, fun sizes q => ⟨rfl, rfl⟩⟩
  intro qs
  cases qs with
  | nil => simp [runMinimumTradeSizeCalls]
  | cons q qs =>
      simp only [runMinimumTradeSizeCalls, minimum_trade_size]
      rw [runMinimumTradeSizeCalls_cached markets
        (buildMinimumTradeSizes markets) qs]
      simp

/-- C5 (amended): with the default minimum length 10, `validate_orderbook`
accepts an order book exactly when both sides are present, both have at
least 10 entries, every entry carries `quantity` and `rate`, the *first*
buy rate is not below the *last* buy rate, and the *first* sell rate is
not above the *last* sell rate.  (The code checks only the two endpoint
rates of each side, not all consecutive entries.) -/
theorem C5_amended_validate_orderbook_characterization (ob : Orderbook) :
    validate_orderbook (some ob) 10 = .ok () ↔
    ∃ buyL sellL bf bl sf sl,
      ob.buy = some buyL ∧ ob.sell = some sellL ∧
      10 ≤ buyL.length ∧ 10 ≤ sellL.length ∧
      buyL.any (fun e => e.quantity.isNone || e.rate.isNone) = false ∧
      sellL.any (fun e => e.quantity.isNone || e.rate.isNone) = false ∧
      headRate buyL = .ok bf ∧ lastRate buyL = .ok bl ∧ ¬ bf < bl ∧
      headRate sellL = .ok sf ∧ lastRate sellL = .ok sl ∧ ¬ sl < sf := by
  constructor
  · intro h
    simp only [validate_orderbook] at h
    rcases hbuy : ob.buy with _ | buyL <;> rw [hbuy] at h
    · simp at h
    rcases hsell : ob.sell with _ | sellL <;> rw [hsell] at h
    · simp at h
    dsimp only at h
    by_cases hlen : buyL.length < 10 ∨ sellL.length < 10
    · rw [if_pos hlen] at h
      simp at h
    rw [if_neg hlen] at h
    by_cases hany1 :
        buyL.any (fun e => e.quantity.isNone || e.rate.isNone) = true
    · rw [if_pos hany1] at h
      simp at h
    rw [if_neg hany1] at h
    by_cases hany2 :
        sellL.any (fun e => e.quantity.isNone || e.rate.isNone) = true
    · rw [if_pos hany2] at h
      simp at h
    rw [if_neg hany2] at h
    rcases hbf : headRate buyL with e | bf <;> rw [hbf] at h
    · simp at h
    rcases hbl : lastRate buyL with e | bl <;> rw [hbl] at h
    · simp at h
    dsimp only at h
    by_cases hlt : bf < bl
    · rw [if_pos hlt] at h
      simp at h
    rw [if_neg hlt] at h
    rcases hsf : headRate sellL with e | sf <;> rw [hsf] at h
    · simp at h
    rcases hsl : lastRate sellL with e | sl <;> rw [hsl] at h
    · simp at h
    dsimp only at h
    by_cases hgt : sl < sf
    · rw [if_pos hgt] at h
      simp at h
    exact ⟨buyL, sellL, bf, bl, sf, sl, rfl, rfl, by omega, by omega,
      by simpa using hany1, by simpa using hany2, hbf, hbl, hlt,
      hsf, hsl, hgt⟩
  · rintro ⟨buyL, sellL, bf, bl, sf, sl, hbuy, hsell, hlb, hls, hany1,
      hany2, hbf, hbl, hlt, hsf, hsl, hgt⟩
    simp only [validate_orderbook, hbuy, hsell]
    rw [if_neg (by omega : ¬(buyL.length < 10 ∨ sellL.length < 10))]
    rw [if_neg (by simp [hany1])]
    rw [if_neg (by simp [hany2])]
    rw [hbf, hbl]
    dsimp only
    rw [if_neg hlt]
    rw [hsf, hsl]
    dsimp only
    rw [if_neg hgt]
